import Mathlib

/-!
Verification development for the Baichuan protocol decoder (`src/bc/de.rs`).

Byte buffers are modelled as `List Nat` (each element a `u8` value).  The
nom streaming combinators used by the source (`take`, `le_u8`, `le_u16`,
`le_u32`, `verify`, `cond`, `map_res`) are embedded as Lean functions on
such lists, returning either a remaining-input/value pair or a nom-style
error (hard `Error`/`Failure` or recoverable `Incomplete`).

The external collaborators that live outside `src/` (the XML codec, the
obfuscation transform `xml_crypto::crypt`, and the session context) are
modelled at their interface boundary, as the spec prescribes.
-/

/-- nom `Needed`: how many more bytes a streaming parser wants (nom 5:
`Size n` carries the total count the failing combinator asked for). -/
inductive Needed where
  | Unknown : Needed
  | Size : Nat → Needed
deriving DecidableEq

/-- nom error classification: `eErr`/`eFail` are hard errors
(`nom::Err::Error` / `nom::Err::Failure`), `eIncomplete` is the soft
"need more bytes" signal (`nom::Err::Incomplete`). -/
inductive NomErr where
  | eErr : NomErr
  | eFail : NomErr
  | eIncomplete : Needed → NomErr
deriving DecidableEq

/-- nom `IResult`: either the remaining input and the parsed value, or a
`NomErr`. -/
inductive IResult (α : Type) where
  | ok : List Nat → α → IResult α
  | err : NomErr → IResult α
deriving DecidableEq

/-- nom 5 streaming `take(count)`: split off `count` bytes, or signal
`Incomplete(Needed::Size(count))` when the input is shorter. -/
def take (count : Nat) (i : List Nat) : IResult (List Nat) :=
  if count ≤ i.length then .ok (i.drop count) (i.take count)
  else .err (.eIncomplete (.Size count))

/-- nom streaming `le_u8`: one byte. -/
def le_u8 : List Nat → IResult Nat
  | b :: rest => .ok rest b
  | _ => .err (.eIncomplete (.Size 1))

/-- nom streaming `le_u16`: two bytes, little-endian. -/
def le_u16 : List Nat → IResult Nat
  | b0 :: b1 :: rest => .ok rest (b0 + 256 * b1)
  | _ => .err (.eIncomplete (.Size 2))

/-- nom streaming `le_u32`: four bytes, little-endian. -/
def le_u32 : List Nat → IResult Nat
  | b0 :: b1 :: b2 :: b3 :: rest =>
      .ok rest (b0 + 256 * b1 + 65536 * b2 + 16777216 * b3)
  | _ => .err (.eIncomplete (.Size 4))

/-- nom `verify(p, pred)`: run `p`, then demand `pred` on its value; a
failing predicate is a hard `Error`. -/
def verify (p : List Nat → IResult Nat) (pred : Nat → Bool) (i : List Nat) :
    IResult Nat :=
  match p i with
  | .ok rest v => if pred v then .ok rest v else .err .eErr
  | .err e => .err e

/-- Wrapping `u32` subtraction, the release-mode semantics of Rust's
`a - b` on `u32`. -/
def u32_sub (a b : Nat) : Nat :=
  (a + 4294967296 - b) % 4294967296

/-- Modelled from the spec: the fixed magic constant that must open every
header (`MAGIC_HEADER` lives in `src/bc/model.rs`, which is not under
`src/`; the claims depend only on equality versus inequality with it). -/
def MAGIC_HEADER : Nat := 0x0abcdef0

/-- Modelled from the spec: the fixed, explicitly enumerated set of
"extended header" class codes whose headers carry a `payload_offset`
(`has_payload_offset` lives in `src/bc/model.rs`, not under `src/`). -/
def has_payload_offset (cls : Nat) : Bool :=
  cls == 0x6414 || cls == 0x0000

/-- Decoded message header (`BcHeader` in `src/bc/model.rs`); field
`class` is spelled `cls` because `class` is a Lean keyword. -/
structure BcHeader where
  msg_id : Nat
  body_len : Nat
  enc_offset : Nat
  encrypted : Bool
  cls : Nat
  payload_offset : Option Nat
deriving DecidableEq

/-- Modelled from the spec: the encryption heuristic isolated behind one
named predicate (`BcHeader::is_encrypted` lives in `src/bc/model.rs`, not
under `src/`; per the spec it reflects the header's `encrypted` flag,
itself derived from `response_code != 0`). -/
def BcHeader.is_encrypted (h : BcHeader) : Bool := h.encrypted

/-- Modelled from the spec: the era flag embedded in the header's wire
representation (`BcHeader::is_modern` lives in `src/bc/model.rs`, not
under `src/`).  The spec and the sample-based tests mark classes
`0x6614`, `0x6414` and `0x0000` as modern and `0x6514` as legacy. -/
def BcHeader.is_modern (h : BcHeader) : Bool :=
  h.cls == 0x6614 || h.cls == 0x6414 || h.cls == 0x0000

/-- The xml-segment length `L` of §3's invariant: `payload_offset` when
present, else `body_len` (the inline `match` of `bc_modern_msg`). -/
def BcHeader.xml_len (h : BcHeader) : Nat :=
  match h.payload_offset with
  | some off => off
  | _ => h.body_len

/-- `bc_header` (`src/bc/de.rs:174`): magic(4B LE, verified), msg_id(4B),
body_len(4B), enc_offset(4B), response_code(1B), one ignored byte,
class(2B), then `payload_offset`(4B) iff `has_payload_offset class`.
`encrypted := response_code != 0`. -/
def bc_header (buf : List Nat) : IResult BcHeader :=
  match verify le_u32 (fun x => x == MAGIC_HEADER) buf with
  | .err e => .err e
  | .ok buf _magic =>
  match le_u32 buf with
  | .err e => .err e
  | .ok buf msg_id =>
  match le_u32 buf with
  | .err e => .err e
  | .ok buf body_len =>
  match le_u32 buf with
  | .err e => .err e
  | .ok buf enc_offset =>
  match le_u8 buf with
  | .err e => .err e
  | .ok buf response_code =>
  match le_u8 buf with
  | .err e => .err e
  | .ok buf _ignored =>
  match le_u16 buf with
  | .err e => .err e
  | .ok buf cls =>
  let encrypted := response_code != 0
  match (if has_payload_offset cls then
           match le_u32 buf with
           | .err e => .err e
           | .ok buf off => .ok buf (some off)
         else .ok buf none : IResult (Option Nat)) with
  | .err e => .err e
  | .ok buf payload_offset =>
      .ok buf { msg_id, body_len, enc_offset, encrypted, cls, payload_offset }

/-- Abstract stand-in for the structured XML document type of the
mandatory xml region (`BcXmls` in `src/bc/xml.rs`, not under `src/`). -/
structure BcXmls where
  doc : Nat
deriving DecidableEq

/-- Abstract stand-in for the structured XML document type of the payload
region (`BcXml` in `src/bc/xml.rs`, not under `src/`). -/
structure BcXml where
  doc : Nat
deriving DecidableEq

/-- Modelled from the spec: the external collaborators consumed by the
modern decoder, specified only at their interface boundary —
`xml_crypto::crypt(offset, bytes) -> bytes` (a length-preserving,
symmetric, offset-keyed obfuscation transform), `BcXmls::try_parse` and
`BcXml::try_parse` (fallible XML codecs).  None of these live under
`src/`, so the development is parameterised over them. -/
structure Externals where
  crypt : Nat → List Nat → List Nat
  tryParseXmls : List Nat → Option BcXmls
  tryParseXml : List Nat → Option BcXml

/-- Modelled from the spec: the opaque session `Context` owned by the
calling layer (e.g. carrying an evolving key); `BcContext` lives in
`src/bc/model.rs`, not under `src/`.  `src/bc/de.rs` receives it by
mutable reference but never reads or writes it. -/
structure BcContext where
  session_key : Nat
deriving DecidableEq

/-- Payload classification (`BcPayloads` in `src/bc/xml.rs`): an XML
payload or opaque binary. -/
inductive BcPayloads where
  | BcXml : BcXml → BcPayloads
  | Binary : List Nat → BcPayloads
deriving DecidableEq

/-- Modern message body (`ModernMsg`): optional xml region, optional
payload. -/
structure ModernMsg where
  xml : Option BcXmls
  payload : Option BcPayloads
deriving DecidableEq

/-- A Rust `String` is modelled as its UTF-8 byte sequence. -/
abbrev RustString := List Nat

/-- Legacy message body (`LegacyMsg` in `src/bc/model.rs`). -/
inductive LegacyMsg where
  | LoginMsg : RustString → RustString → LegacyMsg
  | UnknownMsg : LegacyMsg
deriving DecidableEq

/-- Message body variant (`BcBody` in `src/bc/model.rs`). -/
inductive BcBody where
  | ModernMsg : ModernMsg → BcBody
  | LegacyMsg : LegacyMsg → BcBody
deriving DecidableEq

/-- Modelled from the spec: the era-independent header summary
(`BcHeader::to_meta` / `BcMeta` live in `src/bc/model.rs`, not under
`src/`). -/
structure BcMeta where
  msg_id : Nat
  body_len : Nat
  enc_offset : Nat
  encrypted : Bool
  cls : Nat
deriving DecidableEq

/-- Modelled from the spec: `BcHeader::to_meta` copies the
era-independent header fields into the summary. -/
def BcHeader.to_meta (h : BcHeader) : BcMeta :=
  { msg_id := h.msg_id, body_len := h.body_len, enc_offset := h.enc_offset,
    encrypted := h.encrypted, cls := h.cls }

/-- One decoded protocol unit (`Bc` in `src/bc/model.rs`). -/
structure Bc where
  meta : BcMeta
  body : BcBody
deriving DecidableEq

/-- `bc_modern_msg` (`src/bc/de.rs:109`): take `xml_len` bytes (the
`payload_offset` if present, else `body_len`), compute
`payload_len = body_len - xml_len` (wrapping `u32` subtraction, as the
unchecked Rust `-` does in release builds), take `payload_len` bytes,
decrypt the xml segment when encrypted, parse it as XML when nonempty
(failure is a hard error), then classify the payload region: when the
header is encrypted the classification parses the decrypted payload
segment, when it is not encrypted the source feeds `xml_buf` to the
classification; a failed classification falls back to
`Binary(payload_buf)`. -/
def bc_modern_msg (ext : Externals) (_context : BcContext) (header : BcHeader)
    (buf : List Nat) : IResult ModernMsg :=
  let xml_len := header.xml_len
  match take xml_len buf with
  | .err e => .err e
  | .ok buf xml_buf =>
  let payload_len := u32_sub header.body_len xml_len
  match take payload_len buf with
  | .err e => .err e
  | .ok buf payload_buf =>
  let processed_xml_buf :=
    if !header.is_encrypted then xml_buf
    else ext.crypt header.enc_offset xml_buf
  match (if 0 < xml_len then
           match ext.tryParseXmls processed_xml_buf with
           | some parsed => .ok buf (some parsed)
           | none => .err .eErr
         else .ok buf none : IResult (Option BcXmls)) with
  | .err e => .err e
  | .ok buf xml =>
  let payload :=
    if 0 < payload_len then
      let processed_payload_buf :=
        if !header.is_encrypted then xml_buf
        else ext.crypt header.enc_offset payload_buf
      match ext.tryParseXml processed_payload_buf with
      | some x => some (BcPayloads.BcXml x)
      | none => some (BcPayloads.Binary payload_buf)
    else none
  .ok buf { xml := xml, payload := payload }

/-- Is `b` a UTF-8 continuation byte (`0x80..=0xBF`)? -/
def utf8Cont (b : Nat) : Bool := 0x80 ≤ b && b ≤ 0xBF

/-- UTF-8 validity of a byte sequence, following the byte-range table of
Rust's `core::str` validation (what `String::from_utf8` checks). -/
def utf8Valid : List Nat → Bool
  | [] => true
  | b :: rest =>
    if b ≤ 0x7F then utf8Valid rest
    else if 0xC2 ≤ b && b ≤ 0xDF then
      match rest with
      | c1 :: r => utf8Cont c1 && utf8Valid r
      | _ => false
    else if b == 0xE0 then
      match rest with
      | c1 :: c2 :: r => (0xA0 ≤ c1 && c1 ≤ 0xBF) && utf8Cont c2 && utf8Valid r
      | _ => false
    else if (0xE1 ≤ b && b ≤ 0xEC) || b == 0xEE || b == 0xEF then
      match rest with
      | c1 :: c2 :: r => utf8Cont c1 && utf8Cont c2 && utf8Valid r
      | _ => false
    else if b == 0xED then
      match rest with
      | c1 :: c2 :: r => (0x80 ≤ c1 && c1 ≤ 0x9F) && utf8Cont c2 && utf8Valid r
      | _ => false
    else if b == 0xF0 then
      match rest with
      | c1 :: c2 :: c3 :: r =>
          (0x90 ≤ c1 && c1 ≤ 0xBF) && utf8Cont c2 && utf8Cont c3 && utf8Valid r
      | _ => false
    else if 0xF1 ≤ b && b ≤ 0xF3 then
      match rest with
      | c1 :: c2 :: c3 :: r =>
          utf8Cont c1 && utf8Cont c2 && utf8Cont c3 && utf8Valid r
      | _ => false
    else if b == 0xF4 then
      match rest with
      | c1 :: c2 :: c3 :: r =>
          (0x80 ≤ c1 && c1 ≤ 0x8F) && utf8Cont c2 && utf8Cont c3 && utf8Valid r
      | _ => false
    else false

/-- Rust `String::from_utf8`: the bytes themselves when valid UTF-8,
`none` otherwise (strings are modelled as their byte sequences, so a
successful conversion is verbatim). -/
def string_from_utf8 (bytes : List Nat) : Option RustString :=
  if utf8Valid bytes then some bytes else none

/-- `hex32` (`src/bc/de.rs:96`): `map_res(take(32), String::from_utf8)` —
take 32 bytes and decode them as text; a text-decode failure is a hard
`Error` (nom `map_res` maps closure failure to `ErrorKind::MapRes`). -/
def hex32 (buf : List Nat) : IResult RustString :=
  match take 32 buf with
  | .err e => .err e
  | .ok rest slice =>
    match string_from_utf8 slice with
    | some s => .ok rest s
    | none => .err .eErr

/-- `bc_legacy_login_msg` (`src/bc/de.rs:102`): two fixed 32-byte text
fields, username then password, no decryption. -/
def bc_legacy_login_msg (buf : List Nat) : IResult LegacyMsg :=
  match hex32 buf with
  | .err e => .err e
  | .ok buf username =>
  match hex32 buf with
  | .err e => .err e
  | .ok buf password =>
  .ok buf (LegacyMsg.LoginMsg username password)

/-- Modelled from the spec: the login message id (`MSG_ID_LOGIN` lives in
`src/bc/model.rs`, not under `src/`; the sample tests pin it to 1). -/
def MSG_ID_LOGIN : Nat := 1

/-- `bc_body` (`src/bc/de.rs:79`): era dispatch — modern headers go to
`bc_modern_msg`; legacy headers dispatch on `msg_id`, with every
non-login id decoding to `UnknownMsg`. -/
def bc_body (ext : Externals) (context : BcContext) (header : BcHeader)
    (buf : List Nat) : IResult BcBody :=
  if header.is_modern then
    match bc_modern_msg ext context header buf with
    | .err e => .err e
    | .ok buf body => .ok buf (BcBody.ModernMsg body)
  else
    if header.msg_id == MSG_ID_LOGIN then
      match bc_legacy_login_msg buf with
      | .err e => .err e
      | .ok buf body => .ok buf (BcBody.LegacyMsg body)
    else .ok buf (BcBody.LegacyMsg LegacyMsg.UnknownMsg)

/-- `bc_msg` (`src/bc/de.rs:67`): header then body, assembled into a
`Bc`. -/
def bc_msg (ext : Externals) (context : BcContext) (buf : List Nat) :
    IResult Bc :=
  match bc_header buf with
  | .err e => .err e
  | .ok buf header =>
  match bc_body ext context header buf with
  | .err e => .err e
  | .ok buf body =>
  .ok buf { meta := header.to_meta, body := body }

/-- The two-variant error type returned by the driver (`enum Error` in
`src/bc/de.rs:10`): a parse-level error wrapping nom's hard errors, or a
wrapped I/O error (here: the `UnexpectedEof` produced on a zero-byte
top-up read). -/
inductive DeError where
  | nomError : DeError
  | ioUnexpectedEof : DeError
deriving DecidableEq

/-- Result of a whole decode call. -/
inductive DriverResult (α : Type) where
  | ok : α → DriverResult α
  | err : DeError → DriverResult α
deriving DecidableEq

/-- `read_from_reader` (`src/bc/de.rs:38`): run the parser over the
accumulated buffer; on success return the value; on a hard error return
it; on `Incomplete` read `n` more bytes (1 when the deficit is unknown)
— the byte source is modelled as the list of bytes it will still
deliver, and `rdr.take(n).read_to_end` obtains `min n stream.length` of
them — append whatever arrived and re-run the parse on the whole buffer;
a zero-byte top-up is the hard `UnexpectedEof` I/O error. -/
def read_from_reader {α : Type} (parser : List Nat → IResult α)
    (input stream : List Nat) : DriverResult α :=
  match parser input with
  | .ok _ parsed => .ok parsed
  | .err .eErr => .err .nomError
  | .err .eFail => .err .nomError
  | .err (.eIncomplete needed) =>
    let to_read := match needed with
      | .Unknown => 1
      | .Size n => n
    if h : (stream.take to_read).length = 0 then .err .ioUnexpectedEof
    else read_from_reader parser (input ++ stream.take to_read)
           (stream.drop to_read)
termination_by stream.length
decreasing_by
  simp only [List.length_take, List.length_drop] at h ⊢
  omega

/-- `Bc::deserialize` (`src/bc/de.rs:31`): drive `bc_msg` over the byte
source, starting from an empty accumulation buffer.  The context is
passed by mutable reference in the source but never touched, so the
model returns it unchanged alongside the result. -/
def Bc.deserialize (ext : Externals) (context : BcContext)
    (stream : List Nat) : DriverResult Bc × BcContext :=
  (read_from_reader (fun buf => bc_msg ext context buf) [] stream, context)

/-- `le_u8` either consumes a byte or asks for one more. -/
theorem le_u8_shape (l : List Nat) :
    (∃ r v, le_u8 l = .ok r v) ∨ le_u8 l = .err (.eIncomplete (.Size 1)) := by
  cases l <;> simp [le_u8]

/-- `le_u16` either consumes two bytes or asks for more. -/
theorem le_u16_shape (l : List Nat) :
    (∃ r v, le_u16 l = .ok r v) ∨ le_u16 l = .err (.eIncomplete (.Size 2)) := by
  rcases l with _ | ⟨a, _ | ⟨b, t⟩⟩ <;> simp [le_u16]

/-- `le_u32` either consumes four bytes or asks for more. -/
theorem le_u32_shape (l : List Nat) :
    (∃ r v, le_u32 l = .ok r v) ∨ le_u32 l = .err (.eIncomplete (.Size 4)) := by
  rcases l with _ | ⟨a, _ | ⟨b, _ | ⟨c, _ | ⟨d, t⟩⟩⟩⟩ <;> simp [le_u32]

/-- Claim C3: with at least 4 bytes buffered, a little-endian magic
mismatch is always the hard error, never `Incomplete`; when the magic
matches, header parsing continues past the magic field — the result is a
parsed header or an `Incomplete` request for later fields, never a hard
error. -/
theorem bc_header_magic_gate (b0 b1 b2 b3 : Nat) (rest : List Nat) :
    (b0 + 256 * b1 + 65536 * b2 + 16777216 * b3 ≠ MAGIC_HEADER →
        bc_header (b0 :: b1 :: b2 :: b3 :: rest) = .err .eErr)
    ∧ (b0 + 256 * b1 + 65536 * b2 + 16777216 * b3 = MAGIC_HEADER →
        (∃ r h, bc_header (b0 :: b1 :: b2 :: b3 :: rest) = .ok r h)
        ∨ (∃ n, bc_header (b0 :: b1 :: b2 :: b3 :: rest) =
            .err (.eIncomplete n))) := by
  constructor
  · intro hm
    simp [bc_header, verify, le_u32, hm]
  · intro hm
    have hverify : verify le_u32 (fun x => x == MAGIC_HEADER)
        (b0 :: b1 :: b2 :: b3 :: rest) =
          .ok rest (b0 + 256 * b1 + 65536 * b2 + 16777216 * b3) := by
      simp [verify, le_u32, hm]
    simp only [bc_header, hverify]
    rcases le_u32_shape rest with ⟨r1, v1, h1⟩ | h1 <;> simp only [h1]
    case inr => exact Or.inr ⟨_, rfl⟩
    rcases le_u32_shape r1 with ⟨r2, v2, h2⟩ | h2 <;> simp only [h2]
    case inr => exact Or.inr ⟨_, rfl⟩
    rcases le_u32_shape r2 with ⟨r3, v3, h3⟩ | h3 <;> simp only [h3]
    case inr => exact Or.inr ⟨_, rfl⟩
    rcases le_u8_shape r3 with ⟨r4, v4, h4⟩ | h4 <;> simp only [h4]
    case inr => exact Or.inr ⟨_, rfl⟩
    rcases le_u8_shape r4 with ⟨r5, v5, h5⟩ | h5 <;> simp only [h5]
    case inr => exact Or.inr ⟨_, rfl⟩
    rcases le_u16_shape r5 with ⟨r6, v6, h6⟩ | h6 <;> simp only [h6]
    case inr => exact Or.inr ⟨_, rfl⟩
    rcases Bool.eq_false_or_eq_true (has_payload_offset v6) with hc | hc
    · rw [if_pos hc]
      rcases le_u32_shape r6 with ⟨r7, v7, h7⟩ | h7 <;> simp only [h7]
      · exact Or.inl ⟨_, _, rfl⟩
      · exact Or.inr ⟨_, rfl⟩
    · rw [if_neg (by simp [hc])]
      exact Or.inl ⟨_, _, rfl⟩

/-- Claim C3 witness: concrete instances of both halves — a wrong-magic
5-byte buffer hard-errors, and a correct-magic 4-byte buffer is not a
hard error (it continues into the later fields). -/
theorem bc_header_magic_gate_witness :
    ((1 : Nat) + 256 * 2 + 65536 * 3 + 16777216 * 4 ≠ MAGIC_HEADER
      ∧ bc_header [1, 2, 3, 4, 9] = .err .eErr)
    ∧ ((240 : Nat) + 256 * 222 + 65536 * 188 + 16777216 * 10 = MAGIC_HEADER
      ∧ ((∃ r h, bc_header [240, 222, 188, 10] = .ok r h)
          ∨ (∃ n, bc_header [240, 222, 188, 10] = .err (.eIncomplete n)))) :=
  ⟨⟨by decide, (bc_header_magic_gate 1 2 3 4 [9]).1 (by decide)⟩,
   ⟨by decide, (bc_header_magic_gate 240 222 188 10 []).2 (by decide)⟩⟩

/-- Claim C4: the header parser decodes, in order and all little-endian,
magic(4B, must equal the constant), msg_id(4B), body_len(4B),
enc_offset(4B), response_code(1B), one ignored byte, class(2B), and then
a 4-byte payload_offset exactly when the class is in the extended-header
set; the returned header's `encrypted` flag is `response_code != 0`.
The ignored byte `ig` does not occur in the result, and in the
non-extended case the payload bytes `p0..p3` are left unconsumed. -/
theorem bc_header_field_layout
    (m0 m1 m2 m3 i0 i1 i2 i3 l0 l1 l2 l3 e0 e1 e2 e3 rc ig c0 c1 p0 p1 p2 p3 :
      Nat) (rest : List Nat)
    (hm : m0 + 256 * m1 + 65536 * m2 + 16777216 * m3 = MAGIC_HEADER) :
    (has_payload_offset (c0 + 256 * c1) = false →
      bc_header (m0 :: m1 :: m2 :: m3 :: i0 :: i1 :: i2 :: i3 ::
          l0 :: l1 :: l2 :: l3 :: e0 :: e1 :: e2 :: e3 ::
          rc :: ig :: c0 :: c1 :: p0 :: p1 :: p2 :: p3 :: rest) =
        .ok (p0 :: p1 :: p2 :: p3 :: rest)
          { msg_id := i0 + 256 * i1 + 65536 * i2 + 16777216 * i3,
            body_len := l0 + 256 * l1 + 65536 * l2 + 16777216 * l3,
            enc_offset := e0 + 256 * e1 + 65536 * e2 + 16777216 * e3,
            encrypted := rc != 0,
            cls := c0 + 256 * c1,
            payload_offset := none })
    ∧ (has_payload_offset (c0 + 256 * c1) = true →
      bc_header (m0 :: m1 :: m2 :: m3 :: i0 :: i1 :: i2 :: i3 ::
          l0 :: l1 :: l2 :: l3 :: e0 :: e1 :: e2 :: e3 ::
          rc :: ig :: c0 :: c1 :: p0 :: p1 :: p2 :: p3 :: rest) =
        .ok rest
          { msg_id := i0 + 256 * i1 + 65536 * i2 + 16777216 * i3,
            body_len := l0 + 256 * l1 + 65536 * l2 + 16777216 * l3,
            enc_offset := e0 + 256 * e1 + 65536 * e2 + 16777216 * e3,
            encrypted := rc != 0,
            cls := c0 + 256 * c1,
            payload_offset :=
              some (p0 + 256 * p1 + 65536 * p2 + 16777216 * p3) }) := by
  constructor <;> intro hc <;>
    simp [bc_header, verify, le_u32, le_u16, le_u8, hm, hc]

/-- Claim C4 witness: a concrete 24-byte non-extended header (class
`0x6614`, response_code 1) and a concrete extended one (class `0x0000`,
response_code 0), both with the real magic bytes. -/
theorem bc_header_field_layout_witness :
    (has_payload_offset (20 + 256 * 102) = false
      ∧ bc_header (240 :: 222 :: 188 :: 10 :: 1 :: 0 :: 0 :: 0 ::
          145 :: 0 :: 0 :: 0 :: 0 :: 0 :: 0 :: 1 ::
          1 :: 200 :: 20 :: 102 :: 7 :: 8 :: 9 :: 10 :: [99]) =
        .ok (7 :: 8 :: 9 :: 10 :: [99])
          { msg_id := 1, body_len := 145, enc_offset := 16777216,
            encrypted := true, cls := 0x6614, payload_offset := none })
    ∧ (has_payload_offset (0 + 256 * 0) = true
      ∧ bc_header (240 :: 222 :: 188 :: 10 :: 1 :: 0 :: 0 :: 0 ::
          145 :: 0 :: 0 :: 0 :: 0 :: 0 :: 0 :: 1 ::
          0 :: 200 :: 0 :: 0 :: 7 :: 8 :: 9 :: 10 :: [99]) =
        .ok [99]
          { msg_id := 1, body_len := 145, enc_offset := 16777216,
            encrypted := false, cls := 0,
            payload_offset := some (7 + 256 * 8 + 65536 * 9 + 16777216 * 10) }) := by
  constructor
  · refine ⟨by decide, ?_⟩
    have h := (bc_header_field_layout 240 222 188 10 1 0 0 0 145 0 0 0
      0 0 0 1 1 200 20 102 7 8 9 10 [99] (by decide)).1 (by decide)
    simpa using h
  · refine ⟨by decide, ?_⟩
    have h := (bc_header_field_layout 240 222 188 10 1 0 0 0 145 0 0 0
      0 0 0 1 0 200 0 0 7 8 9 10 [99] (by decide)).2 (by decide)
    simpa using h

/-- When no underflow occurs (`b ≤ a < 2^32`), the wrapping `u32`
subtraction agrees with plain subtraction. -/
theorem u32_sub_of_le (a b : Nat) (hle : b ≤ a) (ha : a < 4294967296) :
    u32_sub a b = a - b := by
  unfold u32_sub
  have h1 : a + 4294967296 - b = (a - b) + 4294967296 := by omega
  rw [h1, Nat.add_mod_right, Nat.mod_eq_of_lt (by omega)]

/-- Inversion for a successful `take`. -/
theorem take_eq_ok (n : Nat) (l rest out : List Nat)
    (h : take n l = .ok rest out) :
    rest = l.drop n ∧ out = l.take n ∧ n ≤ l.length := by
  unfold take at h
  split at h
  · exact ⟨(IResult.ok.injEq _ _ _ _).mp h |>.1.symm,
      (IResult.ok.injEq _ _ _ _).mp h |>.2.symm, by assumption⟩
  · exact absurd h (by simp)

/-- Claim C5: for a modern message with `body_len ≥ L` (and `body_len` a
`u32` value), every successful decode consumes exactly `L` bytes of xml
segment followed by exactly `body_len − L` bytes of payload segment
(the remaining input is `buf.drop body_len`); `L = 0` forces
`xml = none` and `body_len − L = 0` forces `payload = none`; and
`body_len = 0` always succeeds with `xml = none, payload = none`,
regardless of the `encrypted` flag and of the externals. -/
theorem bc_modern_segmentation (ext : Externals) (ctx : BcContext)
    (hdr : BcHeader) (buf : List Nat)
    (hb : hdr.body_len < 4294967296) (hx : hdr.xml_len ≤ hdr.body_len) :
    (∀ rest msg, bc_modern_msg ext ctx hdr buf = .ok rest msg →
        rest = buf.drop hdr.body_len
        ∧ (hdr.xml_len = 0 → msg.xml = none)
        ∧ (hdr.body_len - hdr.xml_len = 0 → msg.payload = none))
    ∧ (hdr.body_len = 0 →
        bc_modern_msg ext ctx hdr buf = .ok buf { xml := none, payload := none }) := by
  constructor
  · intro rest msg hok
    simp only [bc_modern_msg] at hok
    rw [u32_sub_of_le _ _ hx hb] at hok
    split at hok
    case h_1 e heq1 => exact absurd hok (by simp)
    case h_2 buf1 xml_buf heq1 =>
    obtain ⟨hbuf1, hxbuf, hlen1⟩ := take_eq_ok _ _ _ _ heq1
    split at hok
    case h_1 e heq2 => exact absurd hok (by simp)
    case h_2 buf2 payload_buf heq2 =>
    obtain ⟨hbuf2, hpbuf, hlen2⟩ := take_eq_ok _ _ _ _ heq2
    split at hok
    case h_1 e heq3 => exact absurd hok (by simp)
    case h_2 buf3 xmlv heq3 =>
    rw [IResult.ok.injEq] at hok
    obtain ⟨hrest, hmsg⟩ := hok
    have hinv : buf3 = buf2 ∧ (hdr.xml_len = 0 → xmlv = none) := by
      split at heq3
      · split at heq3
        · rw [IResult.ok.injEq] at heq3
          exact ⟨heq3.1.symm, fun h0 => absurd h0 (by omega)⟩
        · exact absurd heq3 (by simp)
      · rw [IResult.ok.injEq] at heq3
        exact ⟨heq3.1.symm, fun _ => heq3.2.symm⟩
    subst hrest hmsg
    refine ⟨?_, ?_, ?_⟩
    · rw [hinv.1, hbuf2, hbuf1, List.drop_drop]
      congr 1
      omega
    · intro h0
      exact hinv.2 h0
    · intro h0
      simp [h0]
  · intro h0
    have hxl0 : hdr.xml_len = 0 := by omega
    have hsub : u32_sub 0 0 = 0 := by decide
    simp [bc_modern_msg, take, hxl0, h0, hsub]

/-- XOR-with-1 obfuscation instance used by concrete witnesses:
length-preserving and self-inverse, as the spec requires of `crypt`. -/
def xor1crypt : Nat → List Nat → List Nat :=
  fun _ b => b.map (fun x => x ^^^ 1)

/-- Externals instance for witnesses: the xml-region parse always
succeeds, the payload-region parse always fails. -/
def extW : Externals :=
  { crypt := xor1crypt,
    tryParseXmls := fun _ => some ⟨0⟩,
    tryParseXml := fun _ => none }

/-- Concrete session context for witnesses. -/
def ctxW : BcContext := ⟨0⟩

/-- Concrete extended-class modern header: `body_len = 3`,
`payload_offset = 1`. -/
def hdrW5 : BcHeader :=
  { msg_id := 1, body_len := 3, enc_offset := 0, encrypted := false,
    cls := 0, payload_offset := some 1 }

/-- Claim C5 witness: the segmentation theorem applied at the concrete
header `hdrW5` and body `[10, 20, 30, 99]`, with both hypotheses
discharged by computation. -/
theorem bc_modern_segmentation_witness :
    hdrW5.body_len < 4294967296 ∧ BcHeader.xml_len hdrW5 ≤ hdrW5.body_len ∧
    ((∀ rest msg, bc_modern_msg extW ctxW hdrW5 [10, 20, 30, 99] = .ok rest msg →
        rest = [10, 20, 30, 99].drop hdrW5.body_len
        ∧ (BcHeader.xml_len hdrW5 = 0 → msg.xml = none)
        ∧ (hdrW5.body_len - BcHeader.xml_len hdrW5 = 0 → msg.payload = none))
    ∧ (hdrW5.body_len = 0 →
        bc_modern_msg extW ctxW hdrW5 [10, 20, 30, 99] =
          .ok [10, 20, 30, 99] { xml := none, payload := none })) :=
  ⟨by decide, by decide,
   bc_modern_segmentation extW ctxW hdrW5 [10, 20, 30, 99] (by decide) (by decide)⟩

/-- Modern header declaring `payload_offset = 5` but `body_len = 4`: the
underflow input of §3's invariant. -/
def hdr_underflow : BcHeader :=
  { msg_id := 2, body_len := 4, enc_offset := 0, encrypted := false,
    cls := 0, payload_offset := some 5 }

/-- Claim C2, code evaluated at the failing input: with
`body_len = 4 < 5 = payload_offset` and the 5 declared xml bytes present,
the unchecked `u32` subtraction wraps to `2^32 − 1` and the decoder
signals `Incomplete(Size 4294967295)` — a request for about 4 GiB more
input — instead of the hard underflow error the spec requires (in debug
builds the Rust subtraction panics instead).  This holds for every
externals instance and context: the error is reached before any of them
is consulted. -/
theorem bc_modern_underflow_wraps (ext : Externals) (ctx : BcContext) :
    bc_modern_msg ext ctx hdr_underflow [1, 2, 3, 4, 5] =
      .err (.eIncomplete (.Size 4294967295))
    ∧ u32_sub hdr_underflow.body_len hdr_underflow.xml_len = 4294967295 := by
  constructor
  · simp [bc_modern_msg, take, u32_sub, BcHeader.xml_len, hdr_underflow]
  · decide

/-- Externals instance that recognises exactly the bytes `[10, 11]` as
XML, in both regions. -/
def extC1 : Externals :=
  { crypt := xor1crypt,
    tryParseXmls := fun b => if b == [10, 11] then some ⟨0⟩ else none,
    tryParseXml := fun b => if b == [10, 11] then some ⟨5⟩ else none }

/-- Unencrypted extended-class modern header: xml segment of 2 bytes,
payload segment of 2 bytes. -/
def hdrC1 : BcHeader :=
  { msg_id := 3, body_len := 4, enc_offset := 0, encrypted := false,
    cls := 0, payload_offset := some 2 }

/-- Claim C1, code evaluated at the failing input: for the unencrypted
modern message with xml segment `[10, 11]` and payload segment
`[20, 21]`, the XML-vs-binary classification is fed the xml segment's
bytes — the result is `XmlPayload ⟨5⟩ = tryParseXml [10, 11]` even
though the classifier rejects the payload segment's own bytes
`[20, 21]`; under the claim the payload would classify as
`Binary [20, 21]`. -/
theorem bc_modern_unencrypted_misclassification :
    bc_modern_msg extC1 ctxW hdrC1 [10, 11, 20, 21] =
      .ok [] { xml := some ⟨0⟩, payload := some (.BcXml ⟨5⟩) }
    ∧ extC1.tryParseXml [20, 21] = none
    ∧ extC1.tryParseXml [10, 11] = some ⟨5⟩ :=
  ⟨by decide, by decide, by decide⟩

/-- Externals instance whose XML parses always fail, with the XOR-1
obfuscation. -/
def extC6 : Externals :=
  { crypt := xor1crypt,
    tryParseXmls := fun _ => none,
    tryParseXml := fun _ => none }

/-- Encrypted extended-class modern header with an empty xml region and a
1-byte payload region. -/
def hdrC6 : BcHeader :=
  { msg_id := 0, body_len := 1, enc_offset := 0, encrypted := true,
    cls := 0, payload_offset := some 0 }

/-- Claim C6 counterexample: for the encrypted message with payload
ciphertext `[7]`, whose payload region fails the XML attempt, the
`BinaryPayload` holds the raw ciphertext byte `[7]` — not the decrypted
bytes `crypt(enc_offset, [7]) = [6]` the claim promises. -/
theorem bc_modern_binary_fallback_counterexample :
    bc_modern_msg extC6 ctxW hdrC6 [7] =
      .ok [] { xml := none, payload := some (.Binary [7]) }
    ∧ extC6.crypt hdrC6.enc_offset [7] = [6]
    ∧ some (BcPayloads.Binary [7]) ≠
        some (BcPayloads.Binary (extC6.crypt hdrC6.enc_offset [7])) :=
  ⟨by decide, by decide, by decide⟩

/-- The buffer the xml-region parse attempt receives: the xml segment
itself, decrypted when the header is encrypted. -/
def processedXml (ext : Externals) (hdr : BcHeader) (buf : List Nat) :
    List Nat :=
  if !hdr.is_encrypted then buf.take hdr.xml_len
  else ext.crypt hdr.enc_offset (buf.take hdr.xml_len)

/-- Claim C6 as amended: with the whole declared body buffered and no
length underflow, (1) a nonempty xml region whose (post-decryption)
bytes fail the XML parse is a hard error; (2) whenever the xml region is
absent or parses, the decode succeeds — the payload classification can
never produce a hard error — and a nonempty payload region always yields
some payload, a `Binary` fallback holding exactly the raw payload
segment as read from the wire (not decrypted), at exactly its original
length. -/
theorem bc_modern_xml_mandatory_binary_fallback (ext : Externals)
    (ctx : BcContext) (hdr : BcHeader) (buf : List Nat)
    (hb : hdr.body_len < 4294967296) (hx : hdr.xml_len ≤ hdr.body_len)
    (hbuf : hdr.body_len ≤ buf.length) :
    (0 < hdr.xml_len →
      ext.tryParseXmls (processedXml ext hdr buf) = none →
        bc_modern_msg ext ctx hdr buf = .err .eErr)
    ∧ ((hdr.xml_len = 0 ∨
          ∃ x, ext.tryParseXmls (processedXml ext hdr buf) = some x) →
        ∃ msg, bc_modern_msg ext ctx hdr buf = .ok (buf.drop hdr.body_len) msg
          ∧ (0 < hdr.body_len - hdr.xml_len →
              ∃ p, msg.payload = some p
                ∧ ∀ b, p = BcPayloads.Binary b →
                    b = (buf.drop hdr.xml_len).take (hdr.body_len - hdr.xml_len)
                    ∧ b.length = hdr.body_len - hdr.xml_len)) := by
  have h1 : hdr.xml_len ≤ buf.length := le_trans hx hbuf
  have heq1 : take hdr.xml_len buf =
      .ok (buf.drop hdr.xml_len) (buf.take hdr.xml_len) := by
    simp [take, h1]
  have hsub := u32_sub_of_le _ _ hx hb
  have h2 : hdr.body_len - hdr.xml_len ≤ (buf.drop hdr.xml_len).length := by
    rw [List.length_drop]; omega
  have heq2 : take (hdr.body_len - hdr.xml_len) (buf.drop hdr.xml_len) =
      .ok ((buf.drop hdr.xml_len).drop (hdr.body_len - hdr.xml_len))
        ((buf.drop hdr.xml_len).take (hdr.body_len - hdr.xml_len)) := by
    unfold take
    rw [if_pos h2]
  have hdd : (buf.drop hdr.xml_len).drop (hdr.body_len - hdr.xml_len) =
      buf.drop hdr.body_len := by
    rw [List.drop_drop]; congr 1; omega
  have hlen : ((buf.drop hdr.xml_len).take (hdr.body_len - hdr.xml_len)).length
      = hdr.body_len - hdr.xml_len := by
    rw [List.length_take, List.length_drop]; omega
  constructor
  · intro hpos hnone
    simp only [bc_modern_msg, heq1, hsub, heq2, hdd]
    rw [if_pos hpos]
    simp only [processedXml] at hnone
    rw [hnone]
  · intro hdisj
    simp only [bc_modern_msg, heq1, hsub, heq2, hdd]
    have hpayload : ∀ xv : Option BcXmls,
        ∃ msg, (IResult.ok (buf.drop hdr.body_len)
            { xml := xv,
              payload :=
                if 0 < hdr.body_len - hdr.xml_len then
                  match ext.tryParseXml
                      (if !hdr.is_encrypted then buf.take hdr.xml_len
                       else ext.crypt hdr.enc_offset
                         ((buf.drop hdr.xml_len).take
                           (hdr.body_len - hdr.xml_len))) with
                  | some x => some (BcPayloads.BcXml x)
                  | none => some (BcPayloads.Binary
                      ((buf.drop hdr.xml_len).take
                        (hdr.body_len - hdr.xml_len)))
                else none } : IResult ModernMsg) =
            .ok (buf.drop hdr.body_len) msg
          ∧ (0 < hdr.body_len - hdr.xml_len →
              ∃ p, msg.payload = some p
                ∧ ∀ b, p = BcPayloads.Binary b →
                    b = (buf.drop hdr.xml_len).take (hdr.body_len - hdr.xml_len)
                    ∧ b.length = hdr.body_len - hdr.xml_len) := by
      intro xv
      refine ⟨_, rfl, ?_⟩
      intro hpl
      dsimp only
      rw [if_pos hpl]
      split
      · exact ⟨_, rfl, fun b hb => absurd hb (by simp)⟩
      · refine ⟨_, rfl, fun b hb => ?_⟩
        rw [BcPayloads.Binary.injEq] at hb
        subst hb
        exact ⟨rfl, hlen⟩
    rcases Nat.eq_zero_or_pos hdr.xml_len with hz | hpos
    · rw [if_neg (by omega)]
      exact hpayload none
    · obtain ⟨x, hsome⟩ := hdisj.resolve_left (by omega)
      simp only [processedXml] at hsome
      rw [if_pos hpos, hsome]
      exact hpayload (some x)

/-- Claim C6 witness: both halves of the amended theorem applied at the
concrete header `hdrC1` and body `[10, 11, 20, 21]` — with the
always-failing codec the nonempty xml region hard-errors; with the
always-succeeding xml codec the decode succeeds and yields a payload. -/
theorem bc_modern_xml_mandatory_binary_fallback_witness :
    (0 < BcHeader.xml_len hdrC1
      ∧ extC6.tryParseXmls (processedXml extC6 hdrC1 [10, 11, 20, 21]) = none
      ∧ bc_modern_msg extC6 ctxW hdrC1 [10, 11, 20, 21] = .err .eErr)
    ∧ (∃ msg, bc_modern_msg extW ctxW hdrC1 [10, 11, 20, 21] =
          .ok ([10, 11, 20, 21].drop hdrC1.body_len) msg
        ∧ (0 < hdrC1.body_len - BcHeader.xml_len hdrC1 →
            ∃ p, msg.payload = some p
              ∧ ∀ b, p = BcPayloads.Binary b →
                  b = ([10, 11, 20, 21].drop (BcHeader.xml_len hdrC1)).take
                        (hdrC1.body_len - BcHeader.xml_len hdrC1)
                  ∧ b.length = hdrC1.body_len - BcHeader.xml_len hdrC1)) :=
  ⟨⟨by decide, by decide,
    (bc_modern_xml_mandatory_binary_fallback extC6 ctxW hdrC1 [10, 11, 20, 21]
      (by decide) (by decide) (by decide)).1 (by decide) (by decide)⟩,
   (bc_modern_xml_mandatory_binary_fallback extW ctxW hdrC1 [10, 11, 20, 21]
      (by decide) (by decide) (by decide)).2 (Or.inr ⟨⟨0⟩, rfl⟩)⟩

/-- Claim C7 counterexample: the legacy login decoder run on an empty
buffer yields `Incomplete(Size 32)` — it can and does signal Incomplete
itself (the streaming `take(32)` inside `hex32`); nothing establishes
buffer sufficiency before it runs. -/
theorem bc_legacy_login_incomplete_counterexample :
    bc_legacy_login_msg [] = .err (.eIncomplete (.Size 32)) := by decide

/-- Claim C7 as amended: the legacy login decoder reads two fixed
32-byte fields, username then password, as text with no decryption; on
a sufficient buffer of valid text both fields are reproduced verbatim
(byte for byte, embedded padding/null bytes included); a field that is
not valid text is the hard error; and on a buffer shorter than the
32-byte field being read the decoder signals `Incomplete(Size 32)`
(which the reader driver satisfies before the decode completes), rather
than never yielding Incomplete. -/
theorem bc_legacy_login_fields (u p rest : List Nat)
    (hu : u.length = 32) (hp : p.length = 32) :
    (utf8Valid u = true → utf8Valid p = true →
        bc_legacy_login_msg (u ++ (p ++ rest)) =
          .ok rest (.LoginMsg u p))
    ∧ (utf8Valid u = false →
        bc_legacy_login_msg (u ++ (p ++ rest)) = .err .eErr)
    ∧ (utf8Valid u = true → utf8Valid p = false →
        bc_legacy_login_msg (u ++ (p ++ rest)) = .err .eErr)
    ∧ (∀ buf : List Nat, buf.length < 32 →
        bc_legacy_login_msg buf = .err (.eIncomplete (.Size 32))) := by
  have htake1 : take 32 (u ++ (p ++ rest)) = .ok (p ++ rest) u := by
    unfold take
    rw [if_pos (by simp [List.length_append]; omega)]
    rw [← hu, List.drop_left, List.take_left]
  have htake2 : take 32 (p ++ rest) = .ok rest p := by
    unfold take
    rw [if_pos (by simp [List.length_append]; omega)]
    rw [← hp, List.drop_left, List.take_left]
  refine ⟨?_, ?_, ?_, ?_⟩
  · intro hvu hvp
    simp [bc_legacy_login_msg, hex32, htake1, htake2, string_from_utf8,
      hvu, hvp]
  · intro hvu
    simp [bc_legacy_login_msg, hex32, htake1, string_from_utf8, hvu]
  · intro hvu hvp
    simp [bc_legacy_login_msg, hex32, htake1, htake2, string_from_utf8,
      hvu, hvp]
  · intro buf hshort
    have : take 32 buf = .err (.eIncomplete (.Size 32)) := by
      unfold take
      rw [if_neg (by omega)]
    simp [bc_legacy_login_msg, hex32, this]

/-- Claim C7 witness: concrete 32-byte fields — a username of 31 `A`s
with an embedded trailing null byte (preserved verbatim) and a password
of 32 `0`s — decode verbatim; additionally the short-buffer and
invalid-text hypotheses are exercised at `[255, A, ..., A]`. -/
theorem bc_legacy_login_fields_witness :
    ((List.replicate 31 65 ++ [0]).length = 32
      ∧ (List.replicate 32 48).length = 32
      ∧ utf8Valid (List.replicate 31 65 ++ [0]) = true
      ∧ utf8Valid (List.replicate 32 48) = true
      ∧ bc_legacy_login_msg
          ((List.replicate 31 65 ++ [0]) ++ (List.replicate 32 48 ++ [9])) =
          .ok [9] (.LoginMsg (List.replicate 31 65 ++ [0])
            (List.replicate 32 48)))
    ∧ (utf8Valid (255 :: List.replicate 31 65) = false
      ∧ bc_legacy_login_msg
          ((255 :: List.replicate 31 65) ++ (List.replicate 32 48 ++ [])) =
          .err .eErr)
    ∧ ([1, 2, 3] : List Nat).length < 32
    ∧ bc_legacy_login_msg [1, 2, 3] = .err (.eIncomplete (.Size 32)) :=
  ⟨⟨by decide, by decide, by decide, by decide,
    (bc_legacy_login_fields (List.replicate 31 65 ++ [0])
      (List.replicate 32 48) [9] (by decide) (by decide)).1
      (by decide) (by decide)⟩,
   ⟨by decide,
    (bc_legacy_login_fields (255 :: List.replicate 31 65)
      (List.replicate 32 48) [] (by decide) (by decide)).2.1 (by decide)⟩,
   by decide,
   (bc_legacy_login_fields (List.replicate 32 0) (List.replicate 32 0) []
      (by decide) (by decide)).2.2.2 [1, 2, 3] (by decide)⟩

/-- Claim C8: the reader driver's protocol — a successful parse returns
the value (consuming nothing further); a hard parse error aborts
immediately with the parse-level error, with the byte source untouched
(the result is the same whatever bytes remain unread); on
`Incomplete(Size n)` it performs one read request of exactly `n` bytes
(`Unknown` requests 1), appends whatever arrives (`min n` available) and
re-runs the full parse on the whole accumulated buffer; and a zero-byte
top-up (end of stream) is the I/O-class `UnexpectedEof` error, a
constructor distinct from the parse-level error. -/
theorem read_from_reader_protocol {α : Type} (parser : List Nat → IResult α)
    (input stream : List Nat) :
    (∀ rest out, parser input = .ok rest out →
        read_from_reader parser input stream = .ok out)
    ∧ (parser input = .err .eErr →
        read_from_reader parser input stream = .err .nomError)
    ∧ (parser input = .err .eFail →
        read_from_reader parser input stream = .err .nomError)
    ∧ (∀ needed, parser input = .err (.eIncomplete needed) → stream = [] →
        read_from_reader parser input stream = .err .ioUnexpectedEof)
    ∧ (∀ n, parser input = .err (.eIncomplete (.Size n)) → 0 < n →
        stream ≠ [] →
        read_from_reader parser input stream =
          read_from_reader parser (input ++ stream.take n) (stream.drop n))
    ∧ (parser input = .err (.eIncomplete .Unknown) → stream ≠ [] →
        read_from_reader parser input stream =
          read_from_reader parser (input ++ stream.take 1) (stream.drop 1))
    ∧ DeError.ioUnexpectedEof ≠ DeError.nomError := by
  refine ⟨?_, ?_, ?_, ?_, ?_, ?_, by simp⟩
  · intro rest out hok
    rw [read_from_reader, hok]
  · intro herr
    rw [read_from_reader, herr]
  · intro herr
    rw [read_from_reader, herr]
  · intro needed hinc hs
    subst hs
    rw [read_from_reader, hinc]
    simp
  · intro n hinc hn hs
    have hlen : ¬ ((stream.take n).length = 0) := by
      rw [List.length_take]
      have := List.length_pos.mpr hs
      omega
    conv_lhs => rw [read_from_reader]
    rw [hinc]
    simp only [dif_neg hlen]
  · intro hinc hs
    have hlen : ¬ ((stream.take 1).length = 0) := by
      rw [List.length_take]
      have := List.length_pos.mpr hs
      omega
    conv_lhs => rw [read_from_reader]
    rw [hinc]
    simp only [dif_neg hlen]

/-- A three-byte parser used to exercise the driver witness: little
endian `le_u16` over the first two bytes would hide the interesting
cases, so use a parser that needs 3 bytes, hard-errors on a leading
zero, and otherwise returns the first byte. -/
def demoParser : List Nat → IResult Nat
  | [] => .err (.eIncomplete (.Size 3))
  | [_] => .err (.eIncomplete (.Size 3))
  | [_, _] => .err (.eIncomplete .Unknown)
  | 0 :: _ :: _ :: _ => .err .eErr
  | b :: _ :: _ :: _ => .ok [] b

/-- Claim C8 witness: the protocol theorem applied at concrete inputs —
a success, a hard error (aborting with bytes still unread), an
exact-size top-up step, an unknown-deficit 1-byte step, and an
end-of-stream `UnexpectedEof`. -/
theorem read_from_reader_protocol_witness :
    (demoParser [5, 6, 7] = .ok [] 5
      ∧ read_from_reader demoParser [5, 6, 7] [8, 9] = .ok 5)
    ∧ (demoParser [0, 6, 7] = .err .eErr
      ∧ read_from_reader demoParser [0, 6, 7] [8, 9] = .err .nomError)
    ∧ (demoParser [] = .err (.eIncomplete (.Size 3)) ∧ 0 < 3
      ∧ ([5, 6, 7, 8] : List Nat) ≠ []
      ∧ read_from_reader demoParser [] [5, 6, 7, 8] =
          read_from_reader demoParser ([] ++ [5, 6, 7, 8].take 3)
            ([5, 6, 7, 8].drop 3))
    ∧ (demoParser [5, 6] = .err (.eIncomplete .Unknown)
      ∧ ([7] : List Nat) ≠ []
      ∧ read_from_reader demoParser [5, 6] [7] =
          read_from_reader demoParser ([5, 6] ++ [7].take 1) ([7].drop 1))
    ∧ (demoParser [5] = .err (.eIncomplete (.Size 3))
      ∧ read_from_reader demoParser [5] [] = .err .ioUnexpectedEof) :=
  ⟨⟨by decide, (read_from_reader_protocol demoParser [5, 6, 7] [8, 9]).1
      [] 5 (by decide)⟩,
   ⟨by decide, (read_from_reader_protocol demoParser [0, 6, 7] [8, 9]).2.1
      (by decide)⟩,
   ⟨by decide, by decide, by decide,
    (read_from_reader_protocol demoParser [] [5, 6, 7, 8]).2.2.2.2.1
      3 (by decide) (by decide) (by decide)⟩,
   ⟨by decide, by decide,
    (read_from_reader_protocol demoParser [5, 6] [7]).2.2.2.2.2.1
      (by decide) (by decide)⟩,
   ⟨by decide, (read_from_reader_protocol demoParser [5] []).2.2.2.1
      (.Size 3) (by decide) rfl⟩⟩

/-- Claim C9: decoding is deterministic — decoding the identical byte
stream twice, each time with a fresh (empty) accumulation buffer and
with the context in whatever state the first decode left it (the source
never mutates it), yields structurally equal results: the same decoded
`Bc` message or the same classified error. -/
theorem deserialize_idempotent (ext : Externals) (ctx : BcContext)
    (stream : List Nat) :
    (Bc.deserialize ext ((Bc.deserialize ext ctx stream).2) stream).1 =
      (Bc.deserialize ext ctx stream).1 := rfl

/-- Claim C10: the decode result is independent of the caller-supplied
session context — for every byte stream and every two contexts,
`Bc::deserialize` produces the same result, because the parse never
consults the context (decryption is keyed solely by the header's own
`enc_offset`). -/
theorem deserialize_context_independent (ext : Externals)
    (c1 c2 : BcContext) (stream : List Nat) :
    (Bc.deserialize ext c1 stream).1 = (Bc.deserialize ext c2 stream).1 := by
  have hmsg : (fun buf => bc_msg ext c1 buf) =
      (fun buf => bc_msg ext c2 buf) := rfl
  simp only [Bc.deserialize]
  rw [hmsg]
